import Mathlib

/-!
Verification of the accelsender boot script (src/apps/accelsender/boot.js).

The script contains a one-dimensional Kalman filter class, three filter
instances (one per accelerometer axis), a peak-tracking accumulator
(updateAcceleration / max_acceleration / hasData) and a periodic sender
(sendAccelerationData).

Embedding conventions:
  - JavaScript numbers are modelled as exact rationals.
  - The NaN sentinel used for the fields x and cov of a fresh filter
    (lines 29 and 30 of the source) is modelled by an Option: the two
    fields are always NaN together or set together, so the pair is one
    Option field st.
  - Math.sqrt has no exact rational counterpart; every definition that
    needs it takes a function sq as a parameter, and theorems that
    depend on its behaviour assume exactly what they need of it
    (sq 0 = 0 and strict monotonicity on nonnegative arguments), which
    Math.sqrt satisfies on nonnegative inputs.
-/

/-- State of the KalmanFilter class of the source. R, Q, A, B, C are the
constructor parameters (defaults 1, 1, 1, 0, 1); st holds the pair
(x, cov) once set, and none models the NaN sentinels of a fresh
instance. -/
structure KalmanFilter where
  R : ℚ
  Q : ℚ
  A : ℚ
  B : ℚ
  C : ℚ
  st : Option (ℚ × ℚ)
deriving DecidableEq

/-- A filter built with the default constructor arguments, as at lines
101 to 103 of the source. -/
def newKalmanFilter : KalmanFilter :=
  { R := 1, Q := 1, A := 1, B := 0, C := 1, st := none }

/-- Body of the predict method (line 65): A * x + B * u, applied to a
given estimate x. -/
def KalmanFilter.predictAt (f : KalmanFilter) (x u : ℚ) : ℚ :=
  f.A * x + f.B * u

/-- Body of the uncertainty method (line 73): A * cov * A + R, applied to
a given covariance value. -/
def KalmanFilter.uncertaintyAt (f : KalmanFilter) (cov : ℚ) : ℚ :=
  f.A * cov * f.A + f.R

/-- The predict method on the stored state. -/
def KalmanFilter.predict (f : KalmanFilter) (u : ℚ) : Option ℚ :=
  f.st.map fun s => f.predictAt s.1 u

/-- The uncertainty method on the stored state. -/
def KalmanFilter.uncertainty (f : KalmanFilter) : Option ℚ :=
  f.st.map fun s => f.uncertaintyAt s.2

/-- The filter method (lines 39 to 57): on a fresh instance it sets
x = (1/C) * z and cov = (1/C) * Q * (1/C); otherwise it runs the
predict / gain / correct update. Returns the updated instance together
with the returned value this.x. -/
def KalmanFilter.filter (f : KalmanFilter) (z u : ℚ) : KalmanFilter × ℚ :=
  match f.st with
  | none =>
      let x := (1 / f.C) * z
      let cov := (1 / f.C) * f.Q * (1 / f.C)
      ({ f with st := some (x, cov) }, x)
  | some (x0, cov0) =>
      let predX := f.predictAt x0 u
      let predCov := f.uncertaintyAt cov0
      let K := predCov * f.C * (1 / (f.C * predCov * f.C + f.Q))
      let x := predX + K * (z - f.C * predX)
      let cov := predCov - K * f.C * predCov
      ({ f with st := some (x, cov) }, x)

/-- Iterated filtering of the same measurement z and control u, n times. -/
def iterFilter (f : KalmanFilter) (z u : ℚ) : ℕ → KalmanFilter
  | 0 => f
  | n + 1 => ((iterFilter f z u n).filter z u).1

/-- The update equations of the already-started branch exactly as the
specification states them, for comparison with KalmanFilter.filter:
returns the corrected (estimate, covariance). -/
def specFilterStep (R Q A B C estimate covariance z u : ℚ) : ℚ × ℚ :=
  let predEstimate := A * estimate + B * u
  let predCov := A * covariance * A + R
  let K := predCov * C / (C * predCov * C + Q)
  (predEstimate + K * (z - C * predEstimate), predCov - K * C * predCov)

/-- Corrected estimate computed by the already-started branch of filter
(line 52), written out with the let bindings of the source expanded. -/
def estStep (f : KalmanFilter) (x0 cov0 z u : ℚ) : ℚ :=
  f.predictAt x0 u +
    f.uncertaintyAt cov0 * f.C * (1 / (f.C * f.uncertaintyAt cov0 * f.C + f.Q)) *
      (z - f.C * f.predictAt x0 u)

/-- Corrected covariance computed by the already-started branch of filter
(line 53), written out with the let bindings of the source expanded. -/
def covStep (f : KalmanFilter) (cov0 : ℚ) : ℚ :=
  f.uncertaintyAt cov0 -
    f.uncertaintyAt cov0 * f.C * (1 / (f.C * f.uncertaintyAt cov0 * f.C + f.Q)) *
      f.C * f.uncertaintyAt cov0

lemma filter_none (f : KalmanFilter) (z u : ℚ) (hst : f.st = none) :
    f.filter z u =
      ({ f with st := some ((1 / f.C) * z, (1 / f.C) * f.Q * (1 / f.C)) },
        (1 / f.C) * z) := by
  simp [KalmanFilter.filter, hst]

lemma filter_some (f : KalmanFilter) (x0 cov0 z u : ℚ)
    (h : f.st = some (x0, cov0)) :
    f.filter z u =
      ({ f with st := some (estStep f x0 cov0 z u, covStep f cov0) },
        estStep f x0 cov0 z u) := by
  simp [KalmanFilter.filter, h, estStep, covStep]

lemma filter_params (f : KalmanFilter) (z u : ℚ) :
    (f.filter z u).1.R = f.R ∧ (f.filter z u).1.Q = f.Q ∧
    (f.filter z u).1.A = f.A ∧ (f.filter z u).1.B = f.B ∧
    (f.filter z u).1.C = f.C := by
  rcases h : f.st with _ | ⟨x0, c0⟩ <;>
    simp [KalmanFilter.filter, h]

/-- C1: the first call of filter on a fresh instance sets
estimate = z / C and covariance = Q / C ^ 2 and returns the new
estimate; with the default C = 1 it returns exactly z. -/
theorem firstCall_sets_state (f : KalmanFilter) (z u : ℚ)
    (hst : f.st = none) (hC : f.C ≠ 0) :
    (f.filter z u).1.st = some (z / f.C, f.Q / f.C ^ 2) ∧
    (f.filter z u).2 = z / f.C ∧
    (f.C = 1 → (f.filter z u).2 = z) := by
  have hx : (1 / f.C) * z = z / f.C := by
    rw [one_div, div_eq_mul_inv, mul_comm]
  have hcov : (1 / f.C) * f.Q * (1 / f.C) = f.Q / f.C ^ 2 := by
    rw [one_div, div_eq_mul_inv, pow_two, mul_inv]
    ring
  refine ⟨?_, ?_, ?_⟩
  · rw [filter_none f z u hst, ← hx, ← hcov]
  · rw [filter_none f z u hst, ← hx]
  · intro h1
    rw [filter_none f z u hst, h1]
    norm_num

theorem firstCall_sets_state_witness :
    newKalmanFilter.st = none ∧ newKalmanFilter.C ≠ 0 ∧
    ((newKalmanFilter.filter 7 0).1.st =
        some (7 / newKalmanFilter.C, newKalmanFilter.Q / newKalmanFilter.C ^ 2) ∧
      (newKalmanFilter.filter 7 0).2 = 7 / newKalmanFilter.C ∧
      (newKalmanFilter.C = 1 → (newKalmanFilter.filter 7 0).2 = 7)) :=
  ⟨rfl, by decide, firstCall_sets_state newKalmanFilter 7 0 rfl (by decide)⟩

/-- C2: on an already-started state (x0, cov0), filter z u performs
exactly the prediction, gain, correction and covariance update that the
specification writes down, and returns the corrected estimate. -/
theorem filter_matches_specEquations (f : KalmanFilter) (x0 cov0 z u : ℚ)
    (h : f.st = some (x0, cov0)) :
    (f.filter z u).1.st =
      some (specFilterStep f.R f.Q f.A f.B f.C x0 cov0 z u) ∧
    (f.filter z u).2 = (specFilterStep f.R f.Q f.A f.B f.C x0 cov0 z u).1 := by
  constructor <;>
    simp [KalmanFilter.filter, specFilterStep, h, div_eq_mul_inv,
      KalmanFilter.predictAt, KalmanFilter.uncertaintyAt, mul_one_div]

theorem filter_matches_specEquations_witness :
    ({ newKalmanFilter with st := some (2, 1) } : KalmanFilter).st = some (2, 1) ∧
    ((({ newKalmanFilter with st := some (2, 1) } : KalmanFilter).filter 4 0).1.st =
        some (specFilterStep 1 1 1 0 1 2 1 4 0) ∧
      (({ newKalmanFilter with st := some (2, 1) } : KalmanFilter).filter 4 0).2 =
        (specFilterStep 1 1 1 0 1 2 1 4 0).1) :=
  ⟨rfl, filter_matches_specEquations
    ({ newKalmanFilter with st := some (2, 1) }) 2 1 4 0 rfl⟩


/-- Filtered 3-vector assembled by the filter function of the source
(lines 136 to 151): components plus the mag field. -/
structure AccelVector where
  x : ℚ
  y : ℚ
  z : ℚ
  mag : ℚ
deriving DecidableEq

/-- The zero vector with zero mag, as at lines 122 to 127 and 183 to 188. -/
def zeroVector : AccelVector := { x := 0, y := 0, z := 0, mag := 0 }

/-- Raw accelerometer event payload: the three components the script
reads from it. -/
structure Accel where
  x : ℚ
  y : ℚ
  z : ℚ
deriving DecidableEq

/-- The peak accumulator of the script: the module variables
max_acceleration (line 122) and hasData (line 133). -/
structure PeakState where
  max_acceleration : AccelVector
  hasData : Bool
deriving DecidableEq

attribute [ext] PeakState

/-- Start value of the accumulator: zero vector and no data. -/
def initialPeakState : PeakState := { max_acceleration := zeroVector, hasData := false }

/-- Peak update of updateAcceleration (lines 159 and 162 to 166) on an
already filtered vector: set hasData and replace the stored peak when
the new mag is strictly greater. This is the consider operation of the
specification. -/
def consider (s : PeakState) (new_accel : AccelVector) : PeakState :=
  { hasData := true
    max_acceleration :=
      if new_accel.mag > s.max_acceleration.mag then new_accel
      else s.max_acceleration }

/-- The message built and sent by sendAccelerationData (lines 174 to
181): a type discriminator and the chosen vector. -/
structure Report where
  t : String
  accel : AccelVector
deriving DecidableEq

/-- sendAccelerationData (lines 174 to 190): chooses the accumulated peak
when hasData is set, otherwise the live sample read from
Bangle.getAccel (passed here as the liveAccel argument), emits one
report, and resets the accumulator. Returns the emitted report and the
state after the reset. -/
def sendAccelerationData (s : PeakState) (liveAccel : AccelVector) : Report × PeakState :=
  let accel := if s.hasData then s.max_acceleration else liveAccel
  ({ t := "accel", accel := accel }, initialPeakState)

/-- The flush-and-reset part of sendAccelerationData: the values of
max_acceleration and hasData handed over at line 175 together with the
reset of lines 183 to 189. This is the flushAndReset operation of the
specification. -/
def flushAndReset (s : PeakState) : (AccelVector × Bool) × PeakState :=
  ((s.max_acceleration, s.hasData), initialPeakState)

/-- C5: consider marks hasData, replaces the stored peak exactly when the
new mag is strictly greater than the stored one (which is 0 whenever
hasData is unset, by the stored invariant), keeps the earlier peak on a
tie, and is idempotent on re-submission of the same vector. -/
theorem consider_peak_spec (s : PeakState) (v : AccelVector)
    (hinv : s.hasData = false → s.max_acceleration = zeroVector) :
    (consider s v).hasData = true ∧
    (consider s v).max_acceleration =
      (if v.mag > (if s.hasData then s.max_acceleration.mag else 0) then v
        else s.max_acceleration) ∧
    consider (consider s v) v = consider s v := by
  refine ⟨rfl, ?_, ?_⟩
  · cases hd : s.hasData with
    | true => simp [consider]
    | false => simp [consider, hinv hd, zeroVector]
  · by_cases hgt : v.mag > s.max_acceleration.mag
    · simp [consider, hgt]
    · simp [consider, hgt]

theorem consider_peak_spec_witness :
    (initialPeakState.hasData = false → initialPeakState.max_acceleration = zeroVector) ∧
    ((consider initialPeakState { x := 1, y := 2, z := 2, mag := 3 }).hasData = true ∧
      (consider initialPeakState { x := 1, y := 2, z := 2, mag := 3 }).max_acceleration =
        (if ({ x := 1, y := 2, z := 2, mag := 3 } : AccelVector).mag >
            (if initialPeakState.hasData then initialPeakState.max_acceleration.mag else 0)
          then ({ x := 1, y := 2, z := 2, mag := 3 } : AccelVector)
          else initialPeakState.max_acceleration) ∧
      consider (consider initialPeakState { x := 1, y := 2, z := 2, mag := 3 })
          { x := 1, y := 2, z := 2, mag := 3 } =
        consider initialPeakState { x := 1, y := 2, z := 2, mag := 3 }) :=
  ⟨fun _ => rfl,
    consider_peak_spec initialPeakState { x := 1, y := 2, z := 2, mag := 3 } (fun _ => rfl)⟩

/-- C6: flushAndReset hands back exactly the stored peak and the hasData
flag and always leaves the accumulator in its start state; called on
the start state (fresh, or right after any previous flush) it yields
hadData false and the zero vector, and the state after a flush does not
depend on the state before it, so nothing leaks into the next window. -/
theorem flushAndReset_resets (s : PeakState) :
    (flushAndReset s).1 = (s.max_acceleration, s.hasData) ∧
    (flushAndReset s).2 = initialPeakState ∧
    (flushAndReset initialPeakState).1 = (zeroVector, false) ∧
    (∀ s2 : PeakState, (flushAndReset s).2 = (flushAndReset s2).2) ∧
    (∀ live : AccelVector, (sendAccelerationData s live).2 = initialPeakState) :=
  ⟨rfl, rfl, rfl, fun _ => rfl, fun _ => rfl⟩

/-- C7: each tick emits exactly one report, carrying the discriminator
and the accumulated peak when hasData is set, and otherwise the freshly
read live sample, never the zero-vector default. -/
theorem sendAccelerationData_report (s : PeakState) (live : AccelVector) :
    (sendAccelerationData s live).1.t = "accel" ∧
    (sendAccelerationData s live).1.accel =
      (if s.hasData then s.max_acceleration else live) :=
  ⟨rfl, rfl⟩

/-- The three per-axis filter instances created at lines 101 to 103. -/
structure AxisBank where
  filterX : KalmanFilter
  filterY : KalmanFilter
  filterZ : KalmanFilter
deriving DecidableEq

/-- The bank as created at startup: three default filters. -/
def initialAxisBank : AxisBank :=
  { filterX := newKalmanFilter, filterY := newKalmanFilter, filterZ := newKalmanFilter }

/-- The filter function of the script (lines 135 to 152): run each axis
component through its filter (control 0) and attach
mag = sqrt of the sum of squares. Math.sqrt is passed in as sq. -/
def filter (sq : ℚ → ℚ) (b : AxisBank) (accel : Accel) : AxisBank × AccelVector :=
  let rx := b.filterX.filter accel.x 0
  let ry := b.filterY.filter accel.y 0
  let rz := b.filterZ.filter accel.z 0
  ({ filterX := rx.1, filterY := ry.1, filterZ := rz.1 },
    { x := rx.2, y := ry.2, z := rz.2,
      mag := sq (rx.2 * rx.2 + ry.2 * ry.2 + rz.2 * rz.2) })

/-- updateAcceleration (lines 158 to 167): set hasData, filter the raw
sample, and replace the stored peak when the new mag is strictly
greater. -/
def updateAcceleration (sq : ℚ → ℚ) (b : AxisBank) (s : PeakState) (accel : Accel) :
    AxisBank × PeakState :=
  let r := filter sq b accel
  (r.1, consider s r.2)

/-- All raw samples delivered during one reporting window, in order. -/
def runWindow (sq : ℚ → ℚ) (b : AxisBank) (s : PeakState) (raws : List Accel) :
    AxisBank × PeakState :=
  raws.foldl (fun acc r => updateAcceleration sq acc.1 acc.2 r) (b, s)

/-- The filtered vectors produced for the raw samples of a window, with
the bank state threaded exactly as runWindow threads it. -/
def filteredTrace (sq : ℚ → ℚ) (b : AxisBank) : List Accel → List AccelVector
  | [] => []
  | a :: rest =>
      let r := filter sq b a
      r.2 :: filteredTrace sq r.1 rest

lemma runWindow_eq_fold_consider (sq : ℚ → ℚ) (raws : List Accel) :
    ∀ (b : AxisBank) (s : PeakState),
      (runWindow sq b s raws).2 = (filteredTrace sq b raws).foldl consider s := by
  induction raws with
  | nil => intro b s; rfl
  | cons a rest ih =>
      intro b s
      simpa [runWindow, filteredTrace, updateAcceleration, List.foldl] using
        ih (filter sq b a).1 (consider s (filter sq b a).2)

lemma fold_consider_nonpos (l : List AccelVector) :
    ∀ s : PeakState, s.max_acceleration = zeroVector →
      (∀ v ∈ l, v.mag ≤ 0) →
      (l.foldl consider s).max_acceleration = zeroVector ∧
      (l ≠ [] → (l.foldl consider s).hasData = true) := by
  induction l with
  | nil =>
      intro s hmax _
      exact ⟨hmax, fun h => absurd rfl h⟩
  | cons v rest ih =>
      intro s hmax hall
      have hv : v.mag ≤ 0 := hall v (List.mem_cons_self v rest)
      have hkeep : consider s v = { max_acceleration := zeroVector, hasData := true } := by
        have hng : ¬ v.mag > zeroVector.mag := by
          simpa [zeroVector] using hv
        simp only [consider, hmax, if_neg hng]
      have hrest :=
        ih ({ max_acceleration := zeroVector, hasData := true }) rfl
          (fun w hw => hall w (List.mem_cons_of_mem v hw))
      constructor
      · simpa [List.foldl, hkeep] using hrest.1
      · intro _
        rcases hrest2 : rest with _ | ⟨w, ws⟩
        · simp [List.foldl, hkeep, hrest2]
        · have := hrest.2 (by simp [hrest2])
          simpa [List.foldl, hkeep, hrest2] using this

/-- C10: updateAcceleration sets hasData on every call, independently of
the peak comparison; hence in a window that received at least one
sample but in which no filtered mag was strictly positive, the stored
peak stays the zero vector while hasData is set, and the flush at the
end of the window emits the zero vector instead of a live reading. -/
theorem updateAcceleration_hasData_zeroPeak (sq : ℚ → ℚ) (b : AxisBank)
    (raws : List Accel) (hne : raws ≠ [])
    (hmag : ∀ v ∈ filteredTrace sq b raws, v.mag ≤ 0) :
    (∀ (b2 : AxisBank) (s : PeakState) (a : Accel),
        (updateAcceleration sq b2 s a).2.hasData = true) ∧
    (runWindow sq b initialPeakState raws).2 =
      { max_acceleration := zeroVector, hasData := true } ∧
    (∀ live : AccelVector,
        (sendAccelerationData (runWindow sq b initialPeakState raws).2 live).1.accel =
          zeroVector) := by
  have hfold := fold_consider_nonpos (filteredTrace sq b raws) initialPeakState rfl hmag
  have htne : filteredTrace sq b raws ≠ [] := by
    cases raws with
    | nil => exact absurd rfl hne
    | cons a rest => simp [filteredTrace]
  have hrun : (runWindow sq b initialPeakState raws).2 =
      { max_acceleration := zeroVector, hasData := true } := by
    rw [runWindow_eq_fold_consider sq raws b initialPeakState]
    exact PeakState.ext hfold.1 (hfold.2 htne)
  refine ⟨fun b2 s a => rfl, hrun, ?_⟩
  intro live
  rw [hrun]
  simp [sendAccelerationData]

theorem updateAcceleration_hasData_zeroPeak_witness :
    ([({ x := 0, y := 0, z := 0 } : Accel)] ≠ []) ∧
    (∀ v ∈ filteredTrace id initialAxisBank [({ x := 0, y := 0, z := 0 } : Accel)],
        v.mag ≤ 0) ∧
    ((∀ (b2 : AxisBank) (s : PeakState) (a : Accel),
        (updateAcceleration id b2 s a).2.hasData = true) ∧
      (runWindow id initialAxisBank initialPeakState
          [({ x := 0, y := 0, z := 0 } : Accel)]).2 =
        { max_acceleration := zeroVector, hasData := true } ∧
      (∀ live : AccelVector,
          (sendAccelerationData
              (runWindow id initialAxisBank initialPeakState
                [({ x := 0, y := 0, z := 0 } : Accel)]).2 live).1.accel =
            zeroVector)) :=
  ⟨by simp, by simp [filteredTrace, filter, KalmanFilter.filter, initialAxisBank,
      newKalmanFilter],
    updateAcceleration_hasData_zeroPeak id initialAxisBank
      [({ x := 0, y := 0, z := 0 } : Accel)] (by simp)
      (by simp [filteredTrace, filter, KalmanFilter.filter, initialAxisBank,
        newKalmanFilter])⟩

/-- C9: feeding the raw samples (1,0,0), (0,5,0), (0,0,2) through the
default bank in order leaves the filtered second sample as the stored
peak, and its mag strictly exceeds the mags of the filtered first and
third samples. -/
theorem endToEnd_peak_second_sample (sq : ℚ → ℚ) (h0 : sq 0 = 0)
    (hmono : ∀ a b : ℚ, 0 ≤ a → a < b → sq a < sq b) :
    filteredTrace sq initialAxisBank
        [{ x := 1, y := 0, z := 0 }, { x := 0, y := 5, z := 0 },
          { x := 0, y := 0, z := 2 }] =
      [{ x := 1, y := 0, z := 0, mag := sq 1 },
        { x := 1/3, y := 10/3, z := 0, mag := sq (101/9) },
        { x := 1/8, y := 5/4, z := 5/4, mag := sq (201/64) }] ∧
    (runWindow sq initialAxisBank initialPeakState
        [{ x := 1, y := 0, z := 0 }, { x := 0, y := 5, z := 0 },
          { x := 0, y := 0, z := 2 }]).2 =
      { max_acceleration := { x := 1/3, y := 10/3, z := 0, mag := sq (101/9) },
        hasData := true } ∧
    sq 1 < sq (101/9) ∧ sq (201/64) < sq (101/9) := by
  have e1 : 0 < sq 1 := by
    have h := hmono 0 1 le_rfl one_pos
    rwa [h0] at h
  have e2 : sq 1 < sq (101/9 : ℚ) := hmono 1 (101/9) (by norm_num) (by norm_num)
  have e3 : sq (201/64 : ℚ) < sq (101/9 : ℚ) :=
    hmono (201/64) (101/9) (by norm_num) (by norm_num)
  have e4 : ¬ (sq (101/9 : ℚ) < sq (201/64 : ℚ)) := lt_asymm e3
  have htrace : filteredTrace sq initialAxisBank
      [{ x := 1, y := 0, z := 0 }, { x := 0, y := 5, z := 0 },
        { x := 0, y := 0, z := 2 }] =
      [{ x := 1, y := 0, z := 0, mag := sq 1 },
        { x := 1/3, y := 10/3, z := 0, mag := sq (101/9) },
        { x := 1/8, y := 5/4, z := 5/4, mag := sq (201/64) }] := by
    norm_num [filteredTrace, filter, KalmanFilter.filter, initialAxisBank,
      newKalmanFilter, KalmanFilter.predictAt, KalmanFilter.uncertaintyAt]
  refine ⟨htrace, ?_, e2, e3⟩
  rw [runWindow_eq_fold_consider sq _ initialAxisBank initialPeakState, htrace]
  simp [List.foldl, consider, initialPeakState, zeroVector, e1, e2, e4]

theorem endToEnd_peak_second_sample_witness :
    (id (0 : ℚ) = 0) ∧
    (∀ a b : ℚ, 0 ≤ a → a < b → id a < id b) ∧
    (filteredTrace id initialAxisBank
        [{ x := 1, y := 0, z := 0 }, { x := 0, y := 5, z := 0 },
          { x := 0, y := 0, z := 2 }] =
      [{ x := 1, y := 0, z := 0, mag := id 1 },
        { x := 1/3, y := 10/3, z := 0, mag := id (101/9) },
        { x := 1/8, y := 5/4, z := 5/4, mag := id (201/64) }] ∧
    (runWindow id initialAxisBank initialPeakState
        [{ x := 1, y := 0, z := 0 }, { x := 0, y := 5, z := 0 },
          { x := 0, y := 0, z := 2 }]).2 =
      { max_acceleration := { x := 1/3, y := 10/3, z := 0, mag := id (101/9) },
        hasData := true } ∧
    id (1 : ℚ) < id (101/9 : ℚ) ∧ id (201/64 : ℚ) < id (101/9 : ℚ)) :=
  ⟨rfl, fun a b _ h => h,
    endToEnd_peak_second_sample id rfl (fun a b _ h => h)⟩

lemma iterFilter_succ (f : KalmanFilter) (z u : ℚ) (n : ℕ) :
    iterFilter f z u (n + 1) = ((iterFilter f z u n).filter z u).1 := rfl

lemma iterFilter_params (f : KalmanFilter) (z u : ℚ) (n : ℕ) :
    (iterFilter f z u n).R = f.R ∧ (iterFilter f z u n).Q = f.Q ∧
    (iterFilter f z u n).A = f.A ∧ (iterFilter f z u n).B = f.B ∧
    (iterFilter f z u n).C = f.C := by
  induction n with
  | zero => exact ⟨rfl, rfl, rfl, rfl, rfl⟩
  | succ n ih =>
      have hs := filter_params (iterFilter f z u n) z u
      rw [iterFilter_succ]
      exact ⟨hs.1.trans ih.1, hs.2.1.trans ih.2.1, hs.2.2.1.trans ih.2.2.1,
        hs.2.2.2.1.trans ih.2.2.2.1, hs.2.2.2.2.trans ih.2.2.2.2⟩

lemma estimate_fixed (f : KalmanFilter) (m : ℚ) (hst : f.st = none)
    (hA : f.A = 1) (hB : f.B = 0) (hC : f.C = 1) :
    ∀ n : ℕ, ∃ c, (iterFilter f m 0 (n + 1)).st = some (m, c) := by
  intro n
  induction n with
  | zero =>
      refine ⟨(1 / f.C) * f.Q * (1 / f.C), ?_⟩
      have h1 : iterFilter f m 0 1 = (f.filter m 0).1 := iterFilter_succ f m 0 0
      rw [h1, filter_none f m 0 hst, hC]
      norm_num
  | succ n ih =>
      obtain ⟨c, hc⟩ := ih
      have hp := iterFilter_params f m 0 (n + 1)
      have hpred : (iterFilter f m 0 (n + 1)).predictAt m 0 = m := by
        simp [KalmanFilter.predictAt, hp.2.2.1, hp.2.2.2.1, hA, hB]
      have hest : estStep (iterFilter f m 0 (n + 1)) m c m 0 = m := by
        rw [estStep, hpred, hp.2.2.2.2, hC]
        ring
      refine ⟨covStep (iterFilter f m 0 (n + 1)) c, ?_⟩
      rw [iterFilter_succ, filter_some (iterFilter f m 0 (n + 1)) m c m 0 hc, hest]

/-- C4: with the default coefficients A = C = 1 and B = 0 and noise
parameters Q strictly positive and R nonnegative, feeding the constant
measurement m to a fresh filter makes the estimate converge to m: past
the first call the stored and returned estimate equals m exactly, so
the absolute error is eventually below every positive bound. -/
theorem constantInput_converges (f : KalmanFilter) (m : ℚ) (hst : f.st = none)
    (hA : f.A = 1) (hB : f.B = 0) (hC : f.C = 1)
    (hQ : 0 < f.Q) (hR : 0 ≤ f.R) :
    ∀ ε : ℚ, 0 < ε → ∃ N : ℕ, ∀ n : ℕ, N ≤ n →
      ∃ x c, (iterFilter f m 0 n).st = some (x, c) ∧ |x - m| < ε := by
  intro ε hε
  refine ⟨1, fun n hn => ?_⟩
  obtain ⟨k, rfl⟩ : ∃ k, n = k + 1 := ⟨n - 1, by omega⟩
  obtain ⟨c, hc⟩ := estimate_fixed f m hst hA hB hC k
  exact ⟨m, c, hc, by simpa using hε⟩

theorem constantInput_converges_witness :
    newKalmanFilter.st = none ∧ newKalmanFilter.A = 1 ∧ newKalmanFilter.B = 0 ∧
    newKalmanFilter.C = 1 ∧ 0 < newKalmanFilter.Q ∧ 0 ≤ newKalmanFilter.R ∧
    (∃ N : ℕ, ∀ n : ℕ, N ≤ n →
      ∃ x c, (iterFilter newKalmanFilter 5 0 n).st = some (x, c) ∧ |x - 5| < 1) :=
  ⟨rfl, rfl, rfl, rfl, by norm_num [newKalmanFilter], by norm_num [newKalmanFilter],
    constantInput_converges newKalmanFilter 5 rfl rfl rfl rfl
      (by norm_num [newKalmanFilter]) (by norm_num [newKalmanFilter]) 1 one_pos⟩

/-- Covariance trajectory of repeated filter calls: value stored after
call n + 1 (the measurements and controls do not enter the
covariance). -/
def cseq (f : KalmanFilter) : ℕ → ℚ
  | 0 => (1 / f.C) * f.Q * (1 / f.C)
  | n + 1 => covStep f (cseq f n)

lemma covStep_congr (g f : KalmanFilter) (c : ℚ)
    (hR : g.R = f.R) (hQ : g.Q = f.Q) (hA : g.A = f.A) (hC : g.C = f.C) :
    covStep g c = covStep f c := by
  simp [covStep, KalmanFilter.uncertaintyAt, hR, hQ, hA, hC]

lemma iterFilter_st_cseq (f : KalmanFilter) (z u : ℚ) (hst : f.st = none) :
    ∀ n : ℕ, ∃ x, (iterFilter f z u (n + 1)).st = some (x, cseq f n) := by
  intro n
  induction n with
  | zero =>
      refine ⟨(1 / f.C) * z, ?_⟩
      have h1 : iterFilter f z u 1 = (f.filter z u).1 := iterFilter_succ f z u 0
      rw [h1, filter_none f z u hst]
      rfl
  | succ n ih =>
      obtain ⟨x, hx⟩ := ih
      have hp := iterFilter_params f z u (n + 1)
      refine ⟨estStep (iterFilter f z u (n + 1)) x (cseq f n) z u, ?_⟩
      rw [iterFilter_succ, filter_some (iterFilter f z u (n + 1)) x (cseq f n) z u hx]
      have hcs : covStep (iterFilter f z u (n + 1)) (cseq f n) = cseq f (n + 1) :=
        covStep_congr (iterFilter f z u (n + 1)) f (cseq f n)
          hp.1 hp.2.1 hp.2.2.1 hp.2.2.2.2
      rw [hcs]

lemma covStep_eq_div (f : KalmanFilter) (c : ℚ)
    (hne : f.C * (f.A * c * f.A + f.R) * f.C + f.Q ≠ 0) :
    covStep f c =
      (f.A * c * f.A + f.R) * f.Q / (f.C * (f.A * c * f.A + f.R) * f.C + f.Q) := by
  rw [covStep, KalmanFilter.uncertaintyAt]
  field_simp
  ring

lemma den_pos (f : KalmanFilter) (p : ℚ) (hQ : 0 < f.Q) (hp : 0 ≤ p) :
    0 < f.C * p * f.C + f.Q := by
  nlinarith [mul_nonneg hp (mul_self_nonneg f.C)]

lemma uncAt_nonneg (f : KalmanFilter) (c : ℚ) (hR : 0 ≤ f.R) (hc : 0 ≤ c) :
    0 ≤ f.A * c * f.A + f.R := by
  nlinarith [mul_nonneg hc (mul_self_nonneg f.A)]

lemma covStep_nonneg (f : KalmanFilter) (c : ℚ)
    (hR : 0 ≤ f.R) (hQ : 0 < f.Q) (hc : 0 ≤ c) :
    0 ≤ covStep f c := by
  have hp := uncAt_nonneg f c hR hc
  have hd := den_pos f (f.A * c * f.A + f.R) hQ hp
  rw [covStep_eq_div f c hd.ne']
  exact div_nonneg (mul_nonneg hp hQ.le) hd.le

lemma covStep_mono (f : KalmanFilter) (c c2 : ℚ)
    (hR : 0 ≤ f.R) (hQ : 0 < f.Q) (hc : 0 ≤ c) (hcc : c ≤ c2) :
    covStep f c ≤ covStep f c2 := by
  have hc2 : 0 ≤ c2 := hc.trans hcc
  have hp := uncAt_nonneg f c hR hc
  have hp2 := uncAt_nonneg f c2 hR hc2
  have hpp2 : f.A * c * f.A + f.R ≤ f.A * c2 * f.A + f.R := by
    nlinarith [mul_nonneg (sub_nonneg.mpr hcc) (mul_self_nonneg f.A)]
  have hd := den_pos f (f.A * c * f.A + f.R) hQ hp
  have hd2 := den_pos f (f.A * c2 * f.A + f.R) hQ hp2
  rw [covStep_eq_div f c hd.ne', covStep_eq_div f c2 hd2.ne',
    div_le_div_iff hd hd2]
  nlinarith [mul_nonneg (mul_pos hQ hQ).le (sub_nonneg.mpr hpp2),
    mul_nonneg (mul_nonneg hp hp2) (mul_self_nonneg f.C)]

lemma cseq_zero_pos (f : KalmanFilter) (hQ : 0 < f.Q) (hC : f.C ≠ 0) :
    0 < cseq f 0 := by
  have hcc : 0 < f.C * f.C := mul_self_pos.mpr hC
  have he : cseq f 0 = f.Q / (f.C * f.C) := by
    show (1 / f.C) * f.Q * (1 / f.C) = f.Q / (f.C * f.C)
    rw [one_div, div_eq_mul_inv, mul_inv]
    ring
  rw [he]
  exact div_pos hQ hcc

lemma cseq_first_le (f : KalmanFilter) (hR : 0 ≤ f.R) (hQ : 0 < f.Q)
    (hC : f.C ≠ 0) : cseq f 1 ≤ cseq f 0 := by
  have hc0 := (cseq_zero_pos f hQ hC).le
  have hp := uncAt_nonneg f (cseq f 0) hR hc0
  have hd := den_pos f (f.A * cseq f 0 * f.A + f.R) hQ hp
  have hcc : 0 < f.C * f.C := mul_self_pos.mpr hC
  have he : cseq f 0 = f.Q / (f.C * f.C) := by
    show (1 / f.C) * f.Q * (1 / f.C) = f.Q / (f.C * f.C)
    rw [one_div, div_eq_mul_inv, mul_inv]
    ring
  have hstep : cseq f 1 = covStep f (cseq f 0) := rfl
  rw [hstep, covStep_eq_div f (cseq f 0) hd.ne']
  rw [he] at hp hd ⊢
  rw [div_le_div_iff hd hcc]
  nlinarith [mul_pos hQ hQ, mul_nonneg (mul_nonneg hp hQ.le) (mul_self_nonneg f.C)]

lemma cseq_antitone_step (f : KalmanFilter) (hR : 0 ≤ f.R) (hQ : 0 < f.Q)
    (hC : f.C ≠ 0) :
    ∀ n : ℕ, 0 ≤ cseq f n ∧ cseq f (n + 1) ≤ cseq f n := by
  intro n
  induction n with
  | zero => exact ⟨(cseq_zero_pos f hQ hC).le, cseq_first_le f hR hQ hC⟩
  | succ n ih =>
      have h1 : 0 ≤ cseq f (n + 1) := covStep_nonneg f (cseq f n) hR hQ ih.1
      have h2 : cseq f (n + 2) ≤ cseq f (n + 1) :=
        covStep_mono f (cseq f (n + 1)) (cseq f n) hR hQ h1 ih.2
      exact ⟨h1, h2⟩

lemma iterFilter_uncertainty_cseq (f : KalmanFilter) (z u : ℚ)
    (hst : f.st = none) (n : ℕ) :
    (iterFilter f z u (n + 1)).uncertainty =
      some (f.A * cseq f n * f.A + f.R) := by
  obtain ⟨x, hx⟩ := iterFilter_st_cseq f z u hst n
  have hp := iterFilter_params f z u (n + 1)
  rw [KalmanFilter.uncertainty, hx]
  simp [KalmanFilter.uncertaintyAt, hp.1, hp.2.2.1]

/-- C3 counterexample: the constructor accepts Q = -1 (with R = 1 and the
other defaults), and then with the constant measurement 0 the
uncertainty is 0 after the first filter call and 1 after the second:
it strictly increases, so non-increase does not hold for every
parameter choice. -/
theorem uncertainty_increases_counterexample :
    (iterFilter { R := 1, Q := -1, A := 1, B := 0, C := 1, st := none } 0 0 1).uncertainty
        = some 0 ∧
    (iterFilter { R := 1, Q := -1, A := 1, B := 0, C := 1, st := none } 0 0 2).uncertainty
        = some 1 ∧
    ¬ ((1 : ℚ) ≤ 0) := by
  refine ⟨?_, ?_, by norm_num⟩ <;>
    norm_num [iterFilter, KalmanFilter.filter, KalmanFilter.uncertainty,
      KalmanFilter.uncertaintyAt, KalmanFilter.predictAt]

/-- C3 (amended): for a fresh filter whose parameters satisfy R ≥ 0,
Q > 0 and C ≠ 0, and any fixed measurement and control fed repeatedly,
the value of uncertainty after each successive filter call is at most
its value after the previous call. -/
theorem uncertainty_nonincreasing (f : KalmanFilter) (z u : ℚ)
    (hst : f.st = none) (hR : 0 ≤ f.R) (hQ : 0 < f.Q) (hC : f.C ≠ 0)
    (n : ℕ) (u1 u2 : ℚ)
    (h1 : (iterFilter f z u (n + 1)).uncertainty = some u1)
    (h2 : (iterFilter f z u (n + 2)).uncertainty = some u2) :
    u2 ≤ u1 := by
  rw [iterFilter_uncertainty_cseq f z u hst n] at h1
  rw [iterFilter_uncertainty_cseq f z u hst (n + 1)] at h2
  have e1 : u1 = f.A * cseq f n * f.A + f.R := (Option.some_injective ℚ h1).symm
  have e2 : u2 = f.A * cseq f (n + 1) * f.A + f.R := (Option.some_injective ℚ h2).symm
  have hmono := (cseq_antitone_step f hR hQ hC n).2
  rw [e1, e2]
  nlinarith [mul_nonneg (sub_nonneg.mpr hmono) (mul_self_nonneg f.A)]

theorem uncertainty_nonincreasing_witness :
    newKalmanFilter.st = none ∧ (0 : ℚ) ≤ newKalmanFilter.R ∧
    0 < newKalmanFilter.Q ∧ newKalmanFilter.C ≠ 0 ∧
    (iterFilter newKalmanFilter 0 0 1).uncertainty = some 2 ∧
    (iterFilter newKalmanFilter 0 0 2).uncertainty = some (5/3) ∧
    (5/3 : ℚ) ≤ 2 :=
  ⟨rfl, by norm_num [newKalmanFilter], by norm_num [newKalmanFilter],
    by norm_num [newKalmanFilter],
    by norm_num [iterFilter, KalmanFilter.filter, KalmanFilter.uncertainty,
      KalmanFilter.uncertaintyAt, KalmanFilter.predictAt, newKalmanFilter],
    by norm_num [iterFilter, KalmanFilter.filter, KalmanFilter.uncertainty,
      KalmanFilter.uncertaintyAt, KalmanFilter.predictAt, newKalmanFilter],
    uncertainty_nonincreasing newKalmanFilter 0 0 rfl
      (by norm_num [newKalmanFilter]) (by norm_num [newKalmanFilter])
      (by norm_num [newKalmanFilter]) 0 2 (5/3)
      (by norm_num [iterFilter, KalmanFilter.filter, KalmanFilter.uncertainty,
        KalmanFilter.uncertaintyAt, KalmanFilter.predictAt, newKalmanFilter])
      (by norm_num [iterFilter, KalmanFilter.filter, KalmanFilter.uncertainty,
        KalmanFilter.uncertaintyAt, KalmanFilter.predictAt, newKalmanFilter])⟩

/-- Addition of JavaScript numbers in the NaN-propagation model: values
are Option rationals, none standing for NaN. A NaN operand makes the
result NaN, as in IEEE arithmetic; finite arithmetic is exact
(overflow to Infinity is outside this model). -/
def jadd : Option ℚ → Option ℚ → Option ℚ
  | some a, some b => some (a + b)
  | _, _ => none

/-- Subtraction in the NaN-propagation model. -/
def jsub : Option ℚ → Option ℚ → Option ℚ
  | some a, some b => some (a - b)
  | _, _ => none

/-- Multiplication in the NaN-propagation model. -/
def jmul : Option ℚ → Option ℚ → Option ℚ
  | some a, some b => some (a * b)
  | _, _ => none

/-- Division in the NaN-propagation model. A zero divisor yields
Infinity in JavaScript, not a finite number; it is marked none here as
well. The theorems below only evaluate this definition where the
divisor is finite and nonzero, so the NaN / Infinity distinction never
matters to them. -/
def jdiv : Option ℚ → Option ℚ → Option ℚ
  | some a, some b => if b = 0 then none else some (a / b)
  | _, _ => none

/-- State of the KalmanFilter class in the NaN-propagation model: the
constructor parameters are plain (finite) numbers, while the fields x
and cov are JavaScript numbers that start out as the NaN sentinel
(none), exactly as at lines 29 and 30 of the source. -/
structure KalmanFilterN where
  R : ℚ
  Q : ℚ
  A : ℚ
  B : ℚ
  C : ℚ
  cov : Option ℚ
  x : Option ℚ
deriving DecidableEq

/-- The constructor parameters of a NaN-model filter, packaged as a
KalmanFilter record so that the scalar lemmas about estStep and
covStep apply. -/
def paramsK (g : KalmanFilterN) : KalmanFilter :=
  { R := g.R, Q := g.Q, A := g.A, B := g.B, C := g.C, st := none }

/-- The filter method (lines 39 to 57) in the NaN-propagation model.
The branch condition is the isNaN test of line 40 on the stored x; all
arithmetic uses the NaN-propagating operations, so a NaN measurement
or a NaN intermediate makes the stored x NaN again. -/
def KalmanFilterN.filterN (f : KalmanFilterN) (z u : Option ℚ) :
    KalmanFilterN × Option ℚ :=
  match f.x with
  | none =>
      let x := jmul (jdiv (some 1) (some f.C)) z
      let cov := jmul (jmul (jdiv (some 1) (some f.C)) (some f.Q))
        (jdiv (some 1) (some f.C))
      ({ f with x := x, cov := cov }, x)
  | some x0 =>
      let predX := jadd (jmul (some f.A) (some x0)) (jmul (some f.B) u)
      let predCov := jadd (jmul (jmul (some f.A) f.cov) (some f.A)) (some f.R)
      let K := jmul (jmul predCov (some f.C))
        (jdiv (some 1) (jadd (jmul (jmul (some f.C) predCov) (some f.C)) (some f.Q)))
      let x := jadd predX (jmul K (jsub z (jmul (some f.C) predX)))
      let cov := jsub predCov (jmul (jmul K (some f.C)) predCov)
      ({ f with x := x, cov := cov }, x)

/-- Folding a list of finite (measurement, control) calls through the
NaN-model filter. -/
def processCallsN (f : KalmanFilterN) (calls : List (ℚ × ℚ)) : KalmanFilterN :=
  calls.foldl (fun g c => (g.filterN (some c.1) (some c.2)).1) f

lemma filterN_none (f : KalmanFilterN) (z u : Option ℚ) (hx : f.x = none)
    (hC : f.C ≠ 0) :
    f.filterN z u =
      ({ f with x := jmul (some (1 / f.C)) z, cov := some ((1 / f.C) * f.Q * (1 / f.C)) }, jmul (some (1 / f.C)) z) := by
  simp [KalmanFilterN.filterN, hx, jmul, jdiv, hC]

lemma filterN_some (f : KalmanFilterN) (x0 c0 : ℚ) (z u : ℚ)
    (hx : f.x = some x0) (hcov : f.cov = some c0)
    (hd : f.C * (f.A * c0 * f.A + f.R) * f.C + f.Q ≠ 0) :
    f.filterN (some z) (some u) =
      ({ f with x := some (estStep (paramsK f) x0 c0 z u), cov := some (covStep (paramsK f) c0) }, some (estStep (paramsK f) x0 c0 z u)) := by
  have hd2 : ¬ (f.C * (f.A * c0 * f.A + f.R) * f.C + f.Q = 0) := hd
  simp only [KalmanFilterN.filterN, hx, hcov, jadd, jsub, jmul, jdiv,
    estStep, covStep, paramsK, KalmanFilter.predictAt, KalmanFilter.uncertaintyAt,
    if_neg hd2]

lemma processCallsN_stays_finite (calls : List (ℚ × ℚ)) :
    ∀ (g : KalmanFilterN) (x0 c0 : ℚ), g.x = some x0 → g.cov = some c0 →
      0 ≤ c0 → 0 ≤ g.R → 0 < g.Q →
      ∃ x1 c1, (processCallsN g calls).x = some x1 ∧
        (processCallsN g calls).cov = some c1 ∧ 0 ≤ c1 := by
  induction calls with
  | nil =>
      intro g x0 c0 hx hcov hc0 _ _
      exact ⟨x0, c0, hx, hcov, hc0⟩
  | cons c rest ih =>
      intro g x0 c0 hx hcov hc0 hR hQ
      have hp : 0 ≤ (paramsK g).A * c0 * (paramsK g).A + (paramsK g).R :=
        uncAt_nonneg (paramsK g) c0 hR hc0
      have hdpos : 0 < (paramsK g).C * ((paramsK g).A * c0 * (paramsK g).A +
          (paramsK g).R) * (paramsK g).C + (paramsK g).Q :=
        den_pos (paramsK g) ((paramsK g).A * c0 * (paramsK g).A + (paramsK g).R) hQ hp
      have hstep := filterN_some g x0 c0 c.1 c.2 hx hcov hdpos.ne'
      have hcnext : 0 ≤ covStep (paramsK g) c0 :=
        covStep_nonneg (paramsK g) c0 hR hQ hc0
      have hfold : processCallsN g (c :: rest) =
          processCallsN (g.filterN (some c.1) (some c.2)).1 rest := rfl
      rw [hfold, hstep]
      exact ih _ (estStep (paramsK g) x0 c0 c.1 c.2) (covStep (paramsK g) c0)
        rfl rfl hcnext hR hQ

/-- C8 counterexample: with the default parameters, filtering the finite
measurement 5 initializes the state (x becomes 5), and filtering the
measurement NaN afterwards sets x back to the NaN sentinel: the
uninitialized condition recurs, because x = 5 + K * (NaN - 5) = NaN, so
the next call would take the bootstrap branch again. The claimed
irreversibility over arbitrary float64 measurements is false of the
program. -/
theorem filterN_reenters_counterexample :
    ((({ R := 1, Q := 1, A := 1, B := 0, C := 1, cov := none, x := none } :
        KalmanFilterN).filterN (some 5) (some 0)).1.x = some 5) ∧
    (((({ R := 1, Q := 1, A := 1, B := 0, C := 1, cov := none, x := none } :
        KalmanFilterN).filterN (some 5) (some 0)).1.filterN none
          (some 0)).1.x = none) := by
  constructor <;>
    norm_num [KalmanFilterN.filterN, jadd, jsub, jmul, jdiv]

/-- C8 (amended): for parameters R ≥ 0, Q > 0, C ≠ 0 and any sequence
of finite measurements and controls in exact arithmetic, the first
filter call moves the state from the NaN sentinel to a finite estimate
and no later call brings it back: the gain denominator stays strictly
positive along the run, so no NaN is ever produced. Reverting to
uninitialized requires a NaN input or a degeneracy excluded here, as
the counterexample shows. -/
theorem filterN_oneWay_finite (f : KalmanFilterN) (z u : ℚ)
    (hx : f.x = none) (hR : 0 ≤ f.R) (hQ : 0 < f.Q) (hC : f.C ≠ 0)
    (calls : List (ℚ × ℚ)) :
    (f.filterN (some z) (some u)).1.x = some ((1 / f.C) * z) ∧
    (processCallsN (f.filterN (some z) (some u)).1 calls).x.isSome = true := by
  have h1 := filterN_none f (some z) (some u) hx hC
  have hcov0 : 0 ≤ (1 / f.C) * f.Q * (1 / f.C) := by
    nlinarith [mul_self_nonneg (1 / f.C), hQ.le]
  constructor
  · rw [h1]
    simp [jmul]
  · have hR2 : 0 ≤ ((f.filterN (some z) (some u)).1).R := by rw [h1]; exact hR
    have hQ2 : 0 < ((f.filterN (some z) (some u)).1).Q := by rw [h1]; exact hQ
    obtain ⟨x1, c1, hx1, _, _⟩ :=
      processCallsN_stays_finite calls (f.filterN (some z) (some u)).1
        ((1 / f.C) * z) ((1 / f.C) * f.Q * (1 / f.C))
        (by rw [h1]; simp [jmul]) (by rw [h1]) hcov0 hR2 hQ2
    simp [hx1]

theorem filterN_oneWay_finite_witness :
    ({ R := 1, Q := 1, A := 1, B := 0, C := 1, cov := none, x := none } :
        KalmanFilterN).x = none ∧
    (0 : ℚ) ≤ ({ R := 1, Q := 1, A := 1, B := 0, C := 1, cov := none, x := none } :
        KalmanFilterN).R ∧
    (0 : ℚ) < ({ R := 1, Q := 1, A := 1, B := 0, C := 1, cov := none, x := none } :
        KalmanFilterN).Q ∧
    ({ R := 1, Q := 1, A := 1, B := 0, C := 1, cov := none, x := none } :
        KalmanFilterN).C ≠ 0 ∧
    ((({ R := 1, Q := 1, A := 1, B := 0, C := 1, cov := none, x := none } :
          KalmanFilterN).filterN (some 5) (some 0)).1.x = some ((1 / 1) * 5) ∧
      (processCallsN (({ R := 1, Q := 1, A := 1, B := 0, C := 1, cov := none, x := none } : KalmanFilterN).filterN (some 5) (some 0)).1
          [(1, 0), (2, 0)]).x.isSome = true) :=
  ⟨rfl, by norm_num, by norm_num, by norm_num,
    filterN_oneWay_finite
      { R := 1, Q := 1, A := 1, B := 0, C := 1, cov := none, x := none }
      5 0 rfl (by norm_num) (by norm_num) (by norm_num) [(1, 0), (2, 0)]⟩
